import Mathlib

/-!
Verification development for the building-action engine of a Minecraft
MCP server (src/tools/building.ts).  The world/agent interface (mineflayer
bot) is modelled as an oracle `Env` whose answers may depend on the whole
history of queries and actions issued so far, so every deterministic
stateful world is an instance.  Each embedded operation returns both its
result and the list of actions it issued.
-/

namespace MinecraftBuild

/-- Integer world coordinate (x, y, z), as used by the building tools. -/
abbrev Coord := Int × Int × Int

/-- Componentwise sum of coordinates (Vec3.plus). -/
def addC (a b : Coord) : Coord := (a.1 + b.1, a.2.1 + b.2.1, a.2.2 + b.2.2)

/-- Componentwise negation (Vec3.scaled (-1)). -/
def negC (a : Coord) : Coord := (-a.1, -a.2.1, -a.2.2)

/-- One observable interaction with the bot/world: a world query or an
agent action, together with the answer the environment gave. -/
inductive Action where
  | query (c : Coord) (result : Option String)
  | canSee (c : Coord) (result : Bool)
  | canDig (c : Coord) (result : Bool)
  | goto (c : Coord) (ok : Bool)
  | look (c : Coord) (ok : Bool)
  | place (ref : Coord) (dir : Coord) (ok : Bool)
  | dig (c : Coord) (ok : Bool)
  deriving DecidableEq

/-- The external bot/world.  Every field may consult the full trace of
actions issued so far, so stateful behaviour (blocks appearing, the agent
moving) is captured.  `ok = false` for goto/look/place/dig models the
corresponding asynchronous call rejecting (throwing). -/
structure Env where
  blockAt : List Action → Coord → Option String
  canSee : List Action → Coord → Bool
  canDig : List Action → Coord → Bool
  gotoOk : List Action → Coord → Bool
  lookOk : List Action → Coord → Bool
  placeOk : List Action → Coord → Coord → Bool
  digOk : List Action → Coord → Bool

/-- The test `blockAtPos && blockAtPos.name !== 'air'`: the queried
block exists and is not air. -/
def isSolid (rb : Option String) : Bool :=
  match rb with
  | some n => n != "air"
  | none => false

/-- The six candidate reference faces, in source order. -/
inductive Face where
  | down | north | south | east | west | up
  deriving DecidableEq

/-- The face offset vectors of placeBlockAt's `faces` array. -/
def faceVec : Face → Coord
  | .down => (0, -1, 0)
  | .north => (0, 0, -1)
  | .south => (0, 0, 1)
  | .east => (1, 0, 0)
  | .west => (-1, 0, 0)
  | .up => (0, 1, 0)

/-- The `faces` list of placeBlockAt, in its fixed priority order. -/
def faces : List Face := [.down, .north, .south, .east, .west, .up]

/-- Outcome of examining one candidate face, with the actions issued:
`success` - placeBlock succeeded, the call returns true at once;
`abort` - goto or lookAt threw, the outer catch returns false at once;
`skip` - no solid reference block at this face, try the next face;
`placeFailed` - placeBlock threw, caught by the inner catch, try the
next face. -/
inductive FaceOutcome where
  | success (acts : List Action)
  | abort (acts : List Action)
  | skip (acts : List Action)
  | placeFailed (acts : List Action)
  deriving DecidableEq

/-- The lookAt + placeBlock part of one face attempt.  `tr` is the
global trace at entry, `acc` the actions of this face attempt so far. -/
def lookAndPlace (env : Env) (tr : List Action) (p : Coord) (f : Face)
    (acc : List Action) : FaceOutcome :=
  let lok := env.lookOk tr p
  let la := Action.look p lok
  if lok then
    let refPos := addC p (faceVec f)
    let dir := negC (faceVec f)
    let pok := env.placeOk (tr ++ [la]) refPos dir
    let pa := Action.place refPos dir pok
    if pok then FaceOutcome.success (acc ++ [la, pa])
    else FaceOutcome.placeFailed (acc ++ [la, pa])
  else FaceOutcome.abort (acc ++ [la])

/-- One iteration of placeBlockAt's `for (const face of faces)` loop body:
query the reference position; if solid, check visibility, reposition if
needed (a goto rejection escapes to the outer catch), then look and place. -/
def faceAttempt (env : Env) (tr : List Action) (p : Coord) (f : Face) :
    FaceOutcome :=
  let refPos := addC p (faceVec f)
  let rb := env.blockAt tr refPos
  let qa := Action.query refPos rb
  if isSolid rb then
    let sees := env.canSee (tr ++ [qa]) refPos
    let sa := Action.canSee refPos sees
    if sees then lookAndPlace env (tr ++ [qa, sa]) p f [qa, sa]
    else
      let gok := env.gotoOk (tr ++ [qa, sa]) refPos
      let ga := Action.goto refPos gok
      if gok then lookAndPlace env (tr ++ [qa, sa, ga]) p f [qa, sa, ga]
      else FaceOutcome.abort [qa, sa, ga]
  else FaceOutcome.skip [qa]

/-- placeBlockAt's face loop over a list of candidate faces.  Returns the
boolean result and the actions issued. -/
def tryFaces (env : Env) (tr : List Action) (p : Coord) :
    List Face → Bool × List Action
  | [] => (false, [])
  | f :: rest =>
    match faceAttempt env tr p f with
    | .success acts => (true, acts)
    | .abort acts => (false, acts)
    | .skip acts =>
      let r := tryFaces env (tr ++ acts) p rest
      (r.1, acts ++ r.2)
    | .placeFailed acts =>
      let r := tryFaces env (tr ++ acts) p rest
      (r.1, acts ++ r.2)

/-- placeBlockAt: query the target; if already solid, return false
without further action; otherwise try the six faces in order.  The
returned list is the actions this call issued, given the prior trace
`tr`.  The `blockType` argument is accepted, as in the source, and never
used by the body. -/
def placeBlockAt (env : Env) (tr : List Action) (x y z : Int)
    (blockType : String) : Bool × List Action :=
  let placePos : Coord := (x, y, z)
  let rb := env.blockAt tr placePos
  let qa := Action.query placePos rb
  if isSolid rb then (false, [qa])
  else
    let r := tryFaces env (tr ++ [qa]) placePos faces
    (r.1, qa :: r.2)

/-- JavaScript falsy coalescing `material || 'default'`: an absent or
empty material becomes the sentinel `"default"`. -/
def matOr (material : Option String) : String :=
  match material with
  | some m => if m = "" then "default" else m
  | none => "default"

/-- The shared orchestration loop of the placement handlers: call
placeBlockAt on each coordinate in order, threading the trace, counting
successes and failures.  Returns (blocksPlaced, blocksFailed, actions). -/
def runPlacements (env : Env) (bt : String) :
    List Action → List Coord → Nat × Nat × List Action
  | _, [] => (0, 0, [])
  | tr, c :: cs =>
    let r := placeBlockAt env tr c.1 c.2.1 c.2.2 bt
    let rest := runPlacements env bt (tr ++ r.2) cs
    if r.1 then (rest.1 + 1, rest.2.1, r.2 ++ rest.2.2)
    else (rest.1, rest.2.1 + 1, r.2 ++ rest.2.2)

/-- The integers from `a` to `b` inclusive, in order — the values taken
by a `for (let v = a; v <= b; v++)` loop. -/
def rangeIcc (a b : Int) : List Int :=
  (List.range (b + 1 - a).toNat).map fun i : Nat => a + (i : Int)

/-- Wall direction, `z.enum(['north', 'south', 'east', 'west'])`. -/
inductive Dir where
  | north | south | east | west
  deriving DecidableEq

/-- The (deltaX, deltaZ) computed by build-wall's direction switch. -/
def dirDelta : Dir → Int × Int
  | .north => (0, -1)
  | .south => (0, 1)
  | .east => (1, 0)
  | .west => (-1, 0)

/-- The coordinates build-wall's triple loop attempts, in order. -/
def buildWallCoords (startX startY startZ : Int) (direction : Dir)
    (length height thickness : Nat) : List Coord :=
  let deltaX := (dirDelta direction).1
  let deltaZ := (dirDelta direction).2
  (List.range length).flatMap fun l =>
    (List.range height).flatMap fun h =>
      (List.range thickness).map fun t : Nat =>
        (startX + deltaX * l + deltaZ * (t : Int), startY + (h : Int),
         startZ + deltaZ * l + deltaX * (t : Int))

/-- The fields of build-wall's completion message that depend on the run. -/
structure WallResponse where
  blocksPlaced : Nat
  blocksFailed : Nat
  totalBlocks : Nat
  deriving DecidableEq

/-- The build-wall handler. -/
def buildWall (env : Env) (tr : List Action) (startX startY startZ : Int)
    (direction : Dir) (length height thickness : Nat)
    (material : Option String) : WallResponse × List Action :=
  let r := runPlacements env (matOr material) tr
    (buildWallCoords startX startY startZ direction length height thickness)
  (⟨r.1, r.2.1, length * height * thickness⟩, r.2.2)

/-- The coordinates build-floor's double loop attempts, in order.
`halfWidth = Math.floor(width / 2)`, similarly `halfLength`. -/
def floorCoords (centerX centerY centerZ : Int) (width length : Nat) :
    List Coord :=
  let halfWidth : Int := (width / 2 : Nat)
  let halfLength : Int := (length / 2 : Nat)
  (rangeIcc (centerX - halfWidth) (centerX + halfWidth)).flatMap fun x =>
    (rangeIcc (centerZ - halfLength) (centerZ + halfLength)).map fun z =>
      (x, centerY, z)

/-- The fields of build-floor's completion message that depend on the run. -/
structure FloorResponse where
  blocksPlaced : Nat
  blocksFailed : Nat
  totalBlocks : Nat
  deriving DecidableEq

/-- The build-floor handler.  Note the reported `totalBlocks` is
`width * length`, not the number of loop iterations. -/
def buildFloor (env : Env) (tr : List Action) (centerX centerY centerZ : Int)
    (width length : Nat) (blockType : Option String) :
    FloorResponse × List Action :=
  let r := runPlacements env (matOr blockType) tr
    (floorCoords centerX centerY centerZ width length)
  (⟨r.1, r.2.1, width * length⟩, r.2.2)

/-- The coordinates fill-area's triple loop attempts, in order: the whole
min/max-normalized bounding cuboid. -/
def fillCoords (x1 y1 z1 x2 y2 z2 : Int) : List Coord :=
  (rangeIcc (min x1 x2) (max x1 x2)).flatMap fun x =>
    (rangeIcc (min y1 y2) (max y1 y2)).flatMap fun y =>
      (rangeIcc (min z1 z2) (max z1 z2)).map fun z => (x, y, z)

/-- build-box's `isEdge` test: at least one axis value is at its
min or max. -/
def boxIsEdge (x1 y1 z1 x2 y2 z2 : Int) (c : Coord) : Bool :=
  c.1 == min x1 x2 || c.1 == max x1 x2 ||
  c.2.1 == min y1 y2 || c.2.1 == max y1 y2 ||
  c.2.2 == min z1 z2 || c.2.2 == max z1 z2

/-- The coordinates build-box's triple loop attempts (those of the
bounding cuboid passing `isEdge`), in order. -/
def boxCoords (x1 y1 z1 x2 y2 z2 : Int) : List Coord :=
  (fillCoords x1 y1 z1 x2 y2 z2).filter (boxIsEdge x1 y1 z1 x2 y2 z2)

/-- The fields of build-box's completion message that depend on the run.
The message reports no attempted total. -/
structure BoxResponse where
  blocksPlaced : Nat
  blocksFailed : Nat
  deriving DecidableEq

/-- The build-box handler. -/
def buildBox (env : Env) (tr : List Action) (x1 y1 z1 x2 y2 z2 : Int)
    (blockType : Option String) : BoxResponse × List Action :=
  let r := runPlacements env (matOr blockType) tr
    (boxCoords x1 y1 z1 x2 y2 z2)
  (⟨r.1, r.2.1⟩, r.2.2)

/-- The fields of fill-area's completion message that depend on the run. -/
structure FillResponse where
  blocksPlaced : Nat
  blocksFailed : Nat
  totalBlocks : Int
  deriving DecidableEq

/-- The fill-area handler.  `totalBlocks` is the product of the three
side lengths of the normalized cuboid. -/
def fillArea (env : Env) (tr : List Action) (x1 y1 z1 x2 y2 z2 : Int)
    (blockType : Option String) : FillResponse × List Action :=
  let r := runPlacements env (matOr blockType) tr
    (fillCoords x1 y1 z1 x2 y2 z2)
  (⟨r.1, r.2.1,
    (max x1 x2 - min x1 x2 + 1) * (max y1 y2 - min y1 y2 + 1) *
    (max z1 z2 - min z1 z2 + 1)⟩, r.2.2)

/-- Per-coordinate outcome of clear-area's loop body: the block was dug,
the attempt threw (goto or dig rejected), or the cell was air/unknown. -/
inductive ClearOutcome where
  | dug | failed | air
  deriving DecidableEq

/-- The final `bot.dig` of one clear-area iteration. -/
def clearDig (env : Env) (tr : List Action) (c : Coord)
    (acc : List Action) : ClearOutcome × List Action :=
  let dok := env.digOk tr c
  let da := Action.dig c dok
  if dok then (ClearOutcome.dug, acc ++ [da])
  else (ClearOutcome.failed, acc ++ [da])

/-- The reposition-then-dig path of one clear-area iteration: a goto
rejection is caught by the per-coordinate catch and counted failed. -/
def clearGotoDig (env : Env) (tr : List Action) (c : Coord)
    (acc : List Action) : ClearOutcome × List Action :=
  let gok := env.gotoOk tr c
  let ga := Action.goto c gok
  if gok then clearDig env (tr ++ [ga]) c (acc ++ [ga])
  else (ClearOutcome.failed, acc ++ [ga])

/-- One iteration of clear-area's loop: query the block; air or absent
blocks are skipped silently; otherwise `!canDigBlock || !canSeeBlock`
(short-circuit: canSee is only consulted when canDig is true) decides
whether to reposition first, then dig. -/
def clearStep (env : Env) (tr : List Action) (c : Coord) :
    ClearOutcome × List Action :=
  let rb := env.blockAt tr c
  let qa := Action.query c rb
  if isSolid rb then
    let cd := env.canDig (tr ++ [qa]) c
    let da := Action.canDig c cd
    if cd then
      let cs := env.canSee (tr ++ [qa, da]) c
      let sa := Action.canSee c cs
      if cs then clearDig env (tr ++ [qa, da, sa]) c [qa, da, sa]
      else clearGotoDig env (tr ++ [qa, da, sa]) c [qa, da, sa]
    else clearGotoDig env (tr ++ [qa, da]) c [qa, da]
  else (ClearOutcome.air, [qa])

/-- clear-area's loop over the cuboid: counts (blocksDug, blocksFailed)
and collects the actions. -/
def clearRun (env : Env) : List Action → List Coord → Nat × Nat × List Action
  | _, [] => (0, 0, [])
  | tr, c :: cs =>
    let s := clearStep env tr c
    let rest := clearRun env (tr ++ s.2) cs
    match s.1 with
    | .dug => (rest.1 + 1, rest.2.1, s.2 ++ rest.2.2)
    | .failed => (rest.1, rest.2.1 + 1, s.2 ++ rest.2.2)
    | .air => (rest.1, rest.2.1, s.2 ++ rest.2.2)

/-- The per-coordinate outcomes of clear-area's loop, in order. -/
def clearOutcomes (env : Env) : List Action → List Coord → List ClearOutcome
  | _, [] => []
  | tr, c :: cs =>
    let s := clearStep env tr c
    s.1 :: clearOutcomes env (tr ++ s.2) cs

/-- The fields of clear-area's completion message that depend on the run. -/
structure ClearResponse where
  blocksDug : Nat
  blocksFailed : Nat
  deriving DecidableEq

/-- The clear-area handler: same bounding cuboid as fill-area. -/
def clearArea (env : Env) (tr : List Action) (x1 y1 z1 x2 y2 z2 : Int) :
    ClearResponse × List Action :=
  let r := clearRun env tr (fillCoords x1 y1 z1 x2 y2 z2)
  (⟨r.1, r.2.1⟩, r.2.2)

/-- The coordinates of the query actions in a trace, in order. -/
def queryEvents : List Action → List Coord
  | [] => []
  | Action.query c _ :: rest => c :: queryEvents rest
  | _ :: rest => queryEvents rest

/-- The place actions in a trace — (reference, direction, succeeded) —
in order. -/
def placeEvents : List Action → List (Coord × Coord × Bool)
  | [] => []
  | Action.place r d ok :: rest => (r, d, ok) :: placeEvents rest
  | _ :: rest => placeEvents rest

/-! ### Index sets, displacement maps and concrete worlds used in proofs -/

/-- Index triples (l, h, t) of build-wall's loop nest, in iteration order. -/
def wallIdx (length height thickness : Nat) : List (Nat × Nat × Nat) :=
  (List.range length).flatMap fun l =>
    (List.range height).flatMap fun h =>
      (List.range thickness).map fun t => (l, h, t)

/-- The displacement map of build-wall's loop body. -/
def wallMap (startX startY startZ : Int) (direction : Dir)
    (q : Nat × Nat × Nat) : Coord :=
  ((startX + (dirDelta direction).1 * q.1 + (dirDelta direction).2 * q.2.2 : Int),
   (startY + q.2.1 : Int),
   (startZ + (dirDelta direction).2 * q.1 + (dirDelta direction).1 * q.2.2 : Int))

/-- A world with air everywhere: every placement fails for lack of a
reference block. -/
def envAllAir : Env where
  blockAt := fun _ _ => some "air"
  canSee := fun _ _ => true
  canDig := fun _ _ => true
  gotoOk := fun _ _ => true
  lookOk := fun _ _ => true
  placeOk := fun _ _ _ => true
  digOk := fun _ _ => true

/-- A world with solid stone everywhere: every target is occupied. -/
def envAllStone : Env where
  blockAt := fun _ _ => some "stone"
  canSee := fun _ _ => true
  canDig := fun _ _ => true
  gotoOk := fun _ _ => true
  lookOk := fun _ _ => true
  placeOk := fun _ _ _ => true
  digOk := fun _ _ => true

/-- A world refuting C2 as stated: below the target, a solid but
invisible reference whose approach movement fails; to the north, a solid
visible reference against which placement would succeed. -/
def envC2 : Env where
  blockAt := fun _ c =>
    if c = ((0 : Int), (-1 : Int), (0 : Int)) then some "stone"
    else if c = ((0 : Int), (0 : Int), (-1 : Int)) then some "stone" else none
  canSee := fun _ c => decide (c ≠ ((0 : Int), (-1 : Int), (0 : Int)))
  canDig := fun _ _ => true
  gotoOk := fun _ _ => false
  lookOk := fun _ _ => true
  placeOk := fun _ _ _ => true
  digOk := fun _ _ => true

/-! ### List helper lemmas -/

lemma length_flatMap_const {α β : Type} (l : List α) (f : α → List β) (k : Nat)
    (h : ∀ a ∈ l, (f a).length = k) : (l.flatMap f).length = l.length * k := by
  rw [List.length_flatMap]
  have hrep : l.map (List.length ∘ f) = List.replicate l.length k := by
    rw [List.eq_replicate_iff]
    refine ⟨by simp, ?_⟩
    intro b hb
    obtain ⟨a, ha, rfl⟩ := List.mem_map.mp hb
    exact h a ha
  rw [hrep, List.sum_replicate, smul_eq_mul]

lemma nodup_flatMap_disjoint {α β : Type} (l : List α) (f : α → List β)
    (h1 : l.Nodup) (h2 : ∀ a ∈ l, (f a).Nodup)
    (h3 : ∀ a ∈ l, ∀ b ∈ l, a ≠ b → ∀ x ∈ f a, x ∉ f b) :
    (l.flatMap f).Nodup := by
  induction l with
  | nil => simp
  | cons a l ih =>
    rw [List.flatMap_cons, List.nodup_append]
    have hnd := List.nodup_cons.mp h1
    refine ⟨h2 a (by simp), ?_, ?_⟩
    · exact ih hnd.2 (fun b hb => h2 b (by simp [hb]))
        (fun b hb c hc hbc => h3 b (by simp [hb]) c (by simp [hc]) hbc)
    · intro x hx hx2
      obtain ⟨b, hb, hxb⟩ := List.mem_flatMap.mp hx2
      have hab : a ≠ b := fun h => hnd.1 (h ▸ hb)
      exact h3 a (by simp) b (by simp [hb]) hab x hx hxb

/-! ### rangeIcc lemmas -/

lemma rangeIcc_length (a b : Int) : (rangeIcc a b).length = (b + 1 - a).toNat := by
  rw [rangeIcc, List.length_map, List.length_range]

lemma mem_rangeIcc {a b x : Int} : x ∈ rangeIcc a b ↔ a ≤ x ∧ x ≤ b := by
  simp only [rangeIcc, List.mem_map, List.mem_range]
  constructor
  · rintro ⟨i, hi, rfl⟩
    omega
  · rintro ⟨h1, h2⟩
    exact ⟨(x - a).toNat, by omega, by omega⟩

lemma rangeIcc_nodup (a b : Int) : (rangeIcc a b).Nodup := by
  refine (List.nodup_range _).map ?_
  intro i j h
  have h2 : a + (i : Int) = a + (j : Int) := h
  omega

/-! ### Wall iterator lemmas (C5) -/

lemma wallIdx_length (a b c : Nat) : (wallIdx a b c).length = a * b * c := by
  rw [wallIdx, length_flatMap_const _ _ (b * c), List.length_range, Nat.mul_assoc]
  intro l _
  rw [length_flatMap_const _ _ c, List.length_range]
  intro h _
  rw [List.length_map, List.length_range]

lemma wallIdx_nodup (a b c : Nat) : (wallIdx a b c).Nodup := by
  refine nodup_flatMap_disjoint _ _ (List.nodup_range a) ?_ ?_
  · intro l _
    refine nodup_flatMap_disjoint _ _ (List.nodup_range b) ?_ ?_
    · intro h _
      refine (List.nodup_range c).map ?_
      intro t t' ht
      have : (l, h, t) = (l, h, t') := ht
      simpa using this
    · intro h _ h' _ hne q hq hq'
      simp only [List.mem_map, List.mem_range] at hq hq'
      obtain ⟨t, _, rfl⟩ := hq
      obtain ⟨t', _, he⟩ := hq'
      simp only [Prod.mk.injEq] at he
      exact hne he.2.1.symm
  · intro l _ l' _ hne q hq hq'
    simp only [List.mem_flatMap, List.mem_map, List.mem_range] at hq hq'
    obtain ⟨h, _, t, _, rfl⟩ := hq
    obtain ⟨h', _, t', _, he⟩ := hq'
    simp only [Prod.mk.injEq] at he
    exact hne he.1.symm

lemma mem_wallIdx {a b c : Nat} {q : Nat × Nat × Nat} :
    q ∈ wallIdx a b c ↔ q.1 < a ∧ q.2.1 < b ∧ q.2.2 < c := by
  simp only [wallIdx, List.mem_flatMap, List.mem_map, List.mem_range]
  constructor
  · rintro ⟨l, hl, h, hh, t, ht, rfl⟩
    exact ⟨hl, hh, ht⟩
  · rintro ⟨h1, h2, h3⟩
    exact ⟨q.1, h1, q.2.1, h2, q.2.2, h3, rfl⟩

lemma buildWallCoords_eq_map (sx sy sz : Int) (dir : Dir) (a b c : Nat) :
    buildWallCoords sx sy sz dir a b c = (wallIdx a b c).map (wallMap sx sy sz dir) := by
  simp only [buildWallCoords, wallIdx, wallMap, List.map_flatMap, List.map_map]
  rfl

lemma wallMap_inj (sx sy sz : Int) (dir : Dir) :
    Function.Injective (wallMap sx sy sz dir) := by
  rintro ⟨l, h, t⟩ ⟨l', h', t'⟩ he
  simp only [wallMap, Prod.mk.injEq] at he
  obtain ⟨h1, h2, h3⟩ := he
  cases dir <;> simp only [dirDelta] at h1 h3 <;>
    refine Prod.ext ?_ (Prod.ext ?_ ?_) <;> simp <;> omega


/-- C5: build-wall attempts exactly length*height*thickness distinct
coordinates given by the displacement formula. -/
theorem c5_wall_coords (startX startY startZ : Int) (direction : Dir)
    (length height thickness : Nat) :
    (buildWallCoords startX startY startZ direction length height thickness).length
        = length * height * thickness ∧
    (buildWallCoords startX startY startZ direction length height thickness).Nodup ∧
    (∀ c : Coord,
      c ∈ buildWallCoords startX startY startZ direction length height thickness ↔
      ∃ l h t : Nat, l < length ∧ h < height ∧ t < thickness ∧
        c = (startX + (dirDelta direction).1 * l + (dirDelta direction).2 * t,
             startY + (h : Int),
             startZ + (dirDelta direction).2 * l + (dirDelta direction).1 * t)) := by
  rw [buildWallCoords_eq_map]
  refine ⟨?_, ?_, ?_⟩
  · rw [List.length_map, wallIdx_length]
  · exact (wallIdx_nodup length height thickness).map
      (wallMap_inj startX startY startZ direction)
  · intro c
    simp only [List.mem_map, mem_wallIdx]
    constructor
    · rintro ⟨⟨l, h, t⟩, ⟨h1, h2, h3⟩, rfl⟩
      exact ⟨l, h, t, h1, h2, h3, rfl⟩
    · rintro ⟨l, h, t, h1, h2, h3, rfl⟩
      exact ⟨(l, h, t), ⟨h1, h2, h3⟩, rfl⟩

/-! ### Floor iterator lemmas (C6) -/

lemma floorCoords_length (cx cy cz : Int) (width length : Nat) :
    (floorCoords cx cy cz width length).length
      = (2 * (width / 2) + 1) * (2 * (length / 2) + 1) := by
  rw [floorCoords, length_flatMap_const _ _ (2 * (length / 2) + 1), rangeIcc_length]
  · congr 1
    omega
  · intro x _
    rw [List.length_map, rangeIcc_length]
    omega

lemma floorCoords_nodup (cx cy cz : Int) (width length : Nat) :
    (floorCoords cx cy cz width length).Nodup := by
  refine nodup_flatMap_disjoint _ _ (rangeIcc_nodup _ _) ?_ ?_
  · intro x _
    refine (rangeIcc_nodup _ _).map ?_
    intro z z' hz
    have : ((x, cy, z) : Coord) = (x, cy, z') := hz
    simpa using this
  · intro x _ x' _ hne c hc hc'
    simp only [List.mem_map] at hc hc'
    obtain ⟨z, _, rfl⟩ := hc
    obtain ⟨z', _, he⟩ := hc'
    simp only [Prod.mk.injEq] at he
    exact hne he.1.symm

lemma mem_floorCoords {cx cy cz : Int} {width length : Nat} {c : Coord} :
    c ∈ floorCoords cx cy cz width length ↔
      cx - ((width / 2 : Nat) : Int) ≤ c.1 ∧ c.1 ≤ cx + ((width / 2 : Nat) : Int) ∧
      c.2.1 = cy ∧
      cz - ((length / 2 : Nat) : Int) ≤ c.2.2 ∧ c.2.2 ≤ cz + ((length / 2 : Nat) : Int) := by
  obtain ⟨a, b, d⟩ := c
  simp only [floorCoords, List.mem_flatMap, List.mem_map, mem_rangeIcc, Prod.mk.injEq]
  constructor
  · rintro ⟨x, ⟨h1, h2⟩, z, ⟨h3, h4⟩, rfl, rfl, rfl⟩
    exact ⟨h1, h2, rfl, h3, h4⟩
  · rintro ⟨h1, h2, rfl, h3, h4⟩
    exact ⟨a, ⟨h1, h2⟩, d, ⟨h3, h4⟩, rfl, rfl, rfl⟩

/-- C6: build-floor attempts exactly (2*floor(width/2)+1)*(2*floor(length/2)+1)
distinct coordinates — the integer grid within halfWidth of centerX and
halfLength of centerZ at height centerY; width or length 0 and 1 coincide. -/
theorem c6_floor_coords (centerX centerY centerZ : Int) (width length : Nat) :
    (floorCoords centerX centerY centerZ width length).length
        = (2 * (width / 2) + 1) * (2 * (length / 2) + 1) ∧
    (floorCoords centerX centerY centerZ width length).Nodup ∧
    (∀ c : Coord, c ∈ floorCoords centerX centerY centerZ width length ↔
      centerX - ((width / 2 : Nat) : Int) ≤ c.1 ∧
      c.1 ≤ centerX + ((width / 2 : Nat) : Int) ∧
      c.2.1 = centerY ∧
      centerZ - ((length / 2 : Nat) : Int) ≤ c.2.2 ∧
      c.2.2 ≤ centerZ + ((length / 2 : Nat) : Int)) ∧
    floorCoords centerX centerY centerZ 0 length
      = floorCoords centerX centerY centerZ 1 length ∧
    floorCoords centerX centerY centerZ width 0
      = floorCoords centerX centerY centerZ width 1 :=
  ⟨floorCoords_length _ _ _ _ _, floorCoords_nodup _ _ _ _ _,
   fun _ => mem_floorCoords, rfl, rfl⟩

/-! ### Fill and box iterator lemmas (C7, C9) -/

lemma mem_fillCoords {x1 y1 z1 x2 y2 z2 : Int} {c : Coord} :
    c ∈ fillCoords x1 y1 z1 x2 y2 z2 ↔
      min x1 x2 ≤ c.1 ∧ c.1 ≤ max x1 x2 ∧
      min y1 y2 ≤ c.2.1 ∧ c.2.1 ≤ max y1 y2 ∧
      min z1 z2 ≤ c.2.2 ∧ c.2.2 ≤ max z1 z2 := by
  obtain ⟨a, b, d⟩ := c
  simp only [fillCoords, List.mem_flatMap, List.mem_map, mem_rangeIcc, Prod.mk.injEq]
  constructor
  · rintro ⟨x, ⟨h1, h2⟩, y, ⟨h3, h4⟩, z, ⟨h5, h6⟩, rfl, rfl, rfl⟩
    exact ⟨h1, h2, h3, h4, h5, h6⟩
  · rintro ⟨h1, h2, h3, h4, h5, h6⟩
    exact ⟨a, ⟨h1, h2⟩, b, ⟨h3, h4⟩, d, ⟨h5, h6⟩, rfl, rfl, rfl⟩

lemma fillCoords_nodup (x1 y1 z1 x2 y2 z2 : Int) :
    (fillCoords x1 y1 z1 x2 y2 z2).Nodup := by
  refine nodup_flatMap_disjoint _ _ (rangeIcc_nodup _ _) ?_ ?_
  · intro x _
    refine nodup_flatMap_disjoint _ _ (rangeIcc_nodup _ _) ?_ ?_
    · intro y _
      refine (rangeIcc_nodup _ _).map ?_
      intro z z' hz
      have : ((x, y, z) : Coord) = (x, y, z') := hz
      simpa using this
    · intro y _ y' _ hne c hc hc'
      simp only [List.mem_map] at hc hc'
      obtain ⟨z, _, rfl⟩ := hc
      obtain ⟨z', _, he⟩ := hc'
      simp only [Prod.mk.injEq] at he
      exact hne he.2.1.symm
  · intro x _ x' _ hne c hc hc'
    simp only [List.mem_flatMap, List.mem_map] at hc hc'
    obtain ⟨y, _, z, _, rfl⟩ := hc
    obtain ⟨y', _, z', _, he⟩ := hc'
    simp only [Prod.mk.injEq] at he
    exact hne he.1.symm

lemma fillCoords_length (x1 y1 z1 x2 y2 z2 : Int) :
    ((fillCoords x1 y1 z1 x2 y2 z2).length : Int)
      = (max x1 x2 - min x1 x2 + 1) * (max y1 y2 - min y1 y2 + 1) *
        (max z1 z2 - min z1 z2 + 1) := by
  rw [fillCoords, length_flatMap_const _ _
    ((max y1 y2 + 1 - min y1 y2).toNat * (max z1 z2 + 1 - min z1 z2).toNat),
    rangeIcc_length]
  · have h1 : min x1 x2 ≤ max x1 x2 := by omega
    have h2 : min y1 y2 ≤ max y1 y2 := by omega
    have h3 : min z1 z2 ≤ max z1 z2 := by omega
    push_cast
    rw [Int.toNat_of_nonneg (by omega), Int.toNat_of_nonneg (by omega),
      Int.toNat_of_nonneg (by omega)]
    ring
  · intro x _
    rw [length_flatMap_const _ _ ((max z1 z2 + 1 - min z1 z2).toNat), rangeIcc_length]
    intro y _
    rw [List.length_map, rangeIcc_length]


lemma mem_boxCoords {x1 y1 z1 x2 y2 z2 : Int} {c : Coord} :
    c ∈ boxCoords x1 y1 z1 x2 y2 z2 ↔
      (min x1 x2 ≤ c.1 ∧ c.1 ≤ max x1 x2 ∧
       min y1 y2 ≤ c.2.1 ∧ c.2.1 ≤ max y1 y2 ∧
       min z1 z2 ≤ c.2.2 ∧ c.2.2 ≤ max z1 z2) ∧
      (c.1 = min x1 x2 ∨ c.1 = max x1 x2 ∨
       c.2.1 = min y1 y2 ∨ c.2.1 = max y1 y2 ∨
       c.2.2 = min z1 z2 ∨ c.2.2 = max z1 z2) := by
  rw [boxCoords, List.mem_filter, mem_fillCoords]
  simp only [boxIsEdge, Bool.or_eq_true, beq_iff_eq]
  tauto

/-- C7: build-box attempts exactly the coordinates of the normalized
bounding cuboid with some axis value at its min or max; strictly
interior coordinates are never attempted. -/
theorem c7_box_surface (x1 y1 z1 x2 y2 z2 : Int) :
    (∀ c : Coord, c ∈ boxCoords x1 y1 z1 x2 y2 z2 ↔
      (min x1 x2 ≤ c.1 ∧ c.1 ≤ max x1 x2 ∧
       min y1 y2 ≤ c.2.1 ∧ c.2.1 ≤ max y1 y2 ∧
       min z1 z2 ≤ c.2.2 ∧ c.2.2 ≤ max z1 z2) ∧
      (c.1 = min x1 x2 ∨ c.1 = max x1 x2 ∨
       c.2.1 = min y1 y2 ∨ c.2.1 = max y1 y2 ∨
       c.2.2 = min z1 z2 ∨ c.2.2 = max z1 z2)) ∧
    (boxCoords x1 y1 z1 x2 y2 z2).Nodup ∧
    (∀ c : Coord,
      min x1 x2 < c.1 ∧ c.1 < max x1 x2 ∧
      min y1 y2 < c.2.1 ∧ c.2.1 < max y1 y2 ∧
      min z1 z2 < c.2.2 ∧ c.2.2 < max z1 z2 →
      c ∉ boxCoords x1 y1 z1 x2 y2 z2) := by
  refine ⟨fun _ => mem_boxCoords, (fillCoords_nodup _ _ _ _ _ _).filter _, ?_⟩
  intro c hint hmem
  rcases (mem_boxCoords.mp hmem).2 with h | h | h | h | h | h <;> omega

/-- C9: swapping either corner pair on any one axis leaves the attempted
coordinate sequences of build-box and fill-area unchanged. -/
theorem c9_corner_swap (x1 y1 z1 x2 y2 z2 : Int) :
    boxCoords x2 y1 z1 x1 y2 z2 = boxCoords x1 y1 z1 x2 y2 z2 ∧
    boxCoords x1 y2 z1 x2 y1 z2 = boxCoords x1 y1 z1 x2 y2 z2 ∧
    boxCoords x1 y1 z2 x2 y2 z1 = boxCoords x1 y1 z1 x2 y2 z2 ∧
    fillCoords x2 y1 z1 x1 y2 z2 = fillCoords x1 y1 z1 x2 y2 z2 ∧
    fillCoords x1 y2 z1 x2 y1 z2 = fillCoords x1 y1 z1 x2 y2 z2 ∧
    fillCoords x1 y1 z2 x2 y2 z1 = fillCoords x1 y1 z1 x2 y2 z2 := by
  have hfx : fillCoords x2 y1 z1 x1 y2 z2 = fillCoords x1 y1 z1 x2 y2 z2 := by
    simp only [fillCoords, min_comm x2 x1, max_comm x2 x1]
  have hfy : fillCoords x1 y2 z1 x2 y1 z2 = fillCoords x1 y1 z1 x2 y2 z2 := by
    simp only [fillCoords, min_comm y2 y1, max_comm y2 y1]
  have hfz : fillCoords x1 y1 z2 x2 y2 z1 = fillCoords x1 y1 z1 x2 y2 z2 := by
    simp only [fillCoords, min_comm z2 z1, max_comm z2 z1]
  have hpx : boxIsEdge x2 y1 z1 x1 y2 z2 = boxIsEdge x1 y1 z1 x2 y2 z2 := by
    funext c
    simp only [boxIsEdge, min_comm x2 x1, max_comm x2 x1]
  have hpy : boxIsEdge x1 y2 z1 x2 y1 z2 = boxIsEdge x1 y1 z1 x2 y2 z2 := by
    funext c
    simp only [boxIsEdge, min_comm y2 y1, max_comm y2 y1]
  have hpz : boxIsEdge x1 y1 z2 x2 y2 z1 = boxIsEdge x1 y1 z1 x2 y2 z2 := by
    funext c
    simp only [boxIsEdge, min_comm z2 z1, max_comm z2 z1]
  refine ⟨?_, ?_, ?_, hfx, hfy, hfz⟩
  · rw [boxCoords, boxCoords, hfx, hpx]
  · rw [boxCoords, boxCoords, hfy, hpy]
  · rw [boxCoords, boxCoords, hfz, hpz]

/-! ### Orchestrator counting (C1) -/

lemma runPlacements_counts (env : Env) (bt : String) :
    ∀ (cs : List Coord) (tr : List Action),
      (runPlacements env bt tr cs).1 + (runPlacements env bt tr cs).2.1 = cs.length := by
  intro cs
  induction cs with
  | nil => intro tr; rfl
  | cons c cs ih =>
    intro tr
    rw [runPlacements]
    have hih := ih (tr ++ (placeBlockAt env tr c.1 c.2.1 c.2.2 bt).2)
    by_cases h : (placeBlockAt env tr c.1 c.2.1 c.2.2 bt).1 = true
    · rw [if_pos h]
      simp only [List.length_cons]
      omega
    · rw [if_neg h]
      simp only [List.length_cons]
      omega

lemma buildWallCoords_length (sx sy sz : Int) (dir : Dir) (a b c : Nat) :
    (buildWallCoords sx sy sz dir a b c).length = a * b * c := by
  rw [buildWallCoords_eq_map, List.length_map, wallIdx_length]

/-- C1 (amended): for each placement shape, blocksPlaced + blocksFailed
equals the generated sequence length; the reported total equals that
length for build-wall and fill-area, while build-floor reports
width*length and build-box reports no total. -/
theorem c1_counts_amended (env : Env) (tr : List Action)
    (startX startY startZ : Int) (direction : Dir)
    (length height thickness : Nat)
    (centerX centerY centerZ : Int) (width flen : Nat)
    (x1 y1 z1 x2 y2 z2 : Int) (material : Option String) :
    ((buildWall env tr startX startY startZ direction length height thickness
        material).1.blocksPlaced
      + (buildWall env tr startX startY startZ direction length height thickness
        material).1.blocksFailed
      = (buildWallCoords startX startY startZ direction length height
        thickness).length ∧
     (buildWall env tr startX startY startZ direction length height thickness
        material).1.totalBlocks
      = (buildWallCoords startX startY startZ direction length height
        thickness).length) ∧
    ((buildFloor env tr centerX centerY centerZ width flen material).1.blocksPlaced
      + (buildFloor env tr centerX centerY centerZ width flen material).1.blocksFailed
      = (floorCoords centerX centerY centerZ width flen).length ∧
     (buildFloor env tr centerX centerY centerZ width flen material).1.totalBlocks
      = width * flen) ∧
    ((buildBox env tr x1 y1 z1 x2 y2 z2 material).1.blocksPlaced
      + (buildBox env tr x1 y1 z1 x2 y2 z2 material).1.blocksFailed
      = (boxCoords x1 y1 z1 x2 y2 z2).length) ∧
    ((fillArea env tr x1 y1 z1 x2 y2 z2 material).1.blocksPlaced
      + (fillArea env tr x1 y1 z1 x2 y2 z2 material).1.blocksFailed
      = (fillCoords x1 y1 z1 x2 y2 z2).length ∧
     ((fillArea env tr x1 y1 z1 x2 y2 z2 material).1.totalBlocks
      = ((fillCoords x1 y1 z1 x2 y2 z2).length : Int))) := by
  refine ⟨⟨?_, ?_⟩, ⟨?_, rfl⟩, ?_, ?_, ?_⟩
  · exact runPlacements_counts env (matOr material) _ tr
  · rw [buildWall, buildWallCoords_length]
  · exact runPlacements_counts env (matOr material) _ tr
  · exact runPlacements_counts env (matOr material) _ tr
  · exact runPlacements_counts env (matOr material) _ tr
  · rw [fillArea, fillCoords_length]

/-- C1 counterexample: build-floor with width 2, length 2 on an all-air
world attempts 9 coordinates (all fail), yet reports a total of 4. -/
theorem c1_floor_total_cex :
    (buildFloor envAllAir [] 0 0 0 2 2 none).1.blocksPlaced
      + (buildFloor envAllAir [] 0 0 0 2 2 none).1.blocksFailed = 9 ∧
    (buildFloor envAllAir [] 0 0 0 2 2 none).1.totalBlocks = 4 := by
  constructor
  · rfl
  · rfl

/-! ### Material independence (C10) and occupied skip (C4) -/

lemma placeBlockAt_const_material (env : Env) (tr : List Action) (x y z : Int)
    (b1 b2 : String) :
    placeBlockAt env tr x y z b1 = placeBlockAt env tr x y z b2 := rfl

lemma runPlacements_const_material (env : Env) (b1 b2 : String) :
    ∀ (cs : List Coord) (tr : List Action),
      runPlacements env b1 tr cs = runPlacements env b2 tr cs := by
  intro cs
  induction cs with
  | nil => intro tr; rfl
  | cons c cs ih =>
    intro tr
    rw [runPlacements, runPlacements,
      placeBlockAt_const_material env tr c.1 c.2.1 c.2.2 b1 b2, ih]

/-- C10: the material/blockType argument of the placement tools is never
consulted — any two values (including absent) give identical queries,
actions and responses, because placeBlockAt ignores its blockType. -/
theorem c10_material_ignored (env : Env) (tr : List Action)
    (startX startY startZ : Int) (direction : Dir)
    (length height thickness : Nat)
    (centerX centerY centerZ : Int) (width flen : Nat)
    (x1 y1 z1 x2 y2 z2 : Int) (x y z : Int)
    (m1 m2 : Option String) (b1 b2 : String) :
    buildWall env tr startX startY startZ direction length height thickness m1
      = buildWall env tr startX startY startZ direction length height thickness m2 ∧
    buildFloor env tr centerX centerY centerZ width flen m1
      = buildFloor env tr centerX centerY centerZ width flen m2 ∧
    buildBox env tr x1 y1 z1 x2 y2 z2 m1
      = buildBox env tr x1 y1 z1 x2 y2 z2 m2 ∧
    fillArea env tr x1 y1 z1 x2 y2 z2 m1
      = fillArea env tr x1 y1 z1 x2 y2 z2 m2 ∧
    placeBlockAt env tr x y z b1 = placeBlockAt env tr x y z b2 := by
  refine ⟨?_, ?_, ?_, ?_, rfl⟩
  · rw [buildWall, buildWall, runPlacements_const_material env (matOr m1) (matOr m2)]
  · rw [buildFloor, buildFloor, runPlacements_const_material env (matOr m1) (matOr m2)]
  · rw [buildBox, buildBox, runPlacements_const_material env (matOr m1) (matOr m2)]
  · rw [fillArea, fillArea, runPlacements_const_material env (matOr m1) (matOr m2)]

/-- C4: a coordinate whose block is already non-air yields false
(skipped) and the only action issued is the initial world query — no
movement, look-at or place action at all. -/
theorem c4_skip_occupied (env : Env) (tr : List Action) (x y z : Int)
    (blockType : String)
    (h : isSolid (env.blockAt tr (x, y, z)) = true) :
    placeBlockAt env tr x y z blockType
      = (false, [Action.query (x, y, z) (env.blockAt tr (x, y, z))]) := by
  rw [placeBlockAt]
  simp only [h, if_true]

/-- C4 witness: on an all-stone world the target (0,0,0) is occupied and
placeBlockAt issues exactly one query and returns false. -/
theorem c4_skip_occupied_witness :
    placeBlockAt envAllStone [] 0 0 0 "default"
      = (false, [Action.query (0, 0, 0) (some "stone")]) :=
  c4_skip_occupied envAllStone [] 0 0 0 "default" (by decide)

/-! ### Face iteration and error scope (C2, C3) -/

lemma queryEvents_cons_query (c : Coord) (r : Option String) (rest : List Action) :
    queryEvents (Action.query c r :: rest) = c :: queryEvents rest := rfl

lemma placeEvents_cons_query (c : Coord) (r : Option String) (rest : List Action) :
    placeEvents (Action.query c r :: rest) = placeEvents rest := rfl

lemma queryEvents_append (l1 l2 : List Action) :
    queryEvents (l1 ++ l2) = queryEvents l1 ++ queryEvents l2 := by
  induction l1 with
  | nil => rfl
  | cons a l ih => cases a <;> simp [queryEvents, ih]

lemma placeEvents_append (l1 l2 : List Action) :
    placeEvents (l1 ++ l2) = placeEvents l1 ++ placeEvents l2 := by
  induction l1 with
  | nil => rfl
  | cons a l ih => cases a <;> simp [placeEvents, ih]

lemma lookAndPlace_shape (env : Env) (tr : List Action) (p : Coord) (f : Face)
    (acc : List Action) :
    (∃ acts, lookAndPlace env tr p f acc = FaceOutcome.abort acts ∧
       queryEvents acts = queryEvents acc ∧
       placeEvents acts = placeEvents acc ∧
       ∃ pre, acts = pre ++ [Action.look p false]) ∨
    (∃ acts, lookAndPlace env tr p f acc = FaceOutcome.success acts ∧
       queryEvents acts = queryEvents acc ∧
       placeEvents acts
         = placeEvents acc ++ [(addC p (faceVec f), negC (faceVec f), true)] ∧
       ∃ pre, acts = pre ++ [Action.place (addC p (faceVec f)) (negC (faceVec f)) true]) ∨
    (∃ acts, lookAndPlace env tr p f acc = FaceOutcome.placeFailed acts ∧
       queryEvents acts = queryEvents acc ∧
       placeEvents acts
         = placeEvents acc ++ [(addC p (faceVec f), negC (faceVec f), false)] ∧
       ∃ pre, acts = pre ++ [Action.place (addC p (faceVec f)) (negC (faceVec f)) false]) := by
  by_cases hl : env.lookOk tr p = true
  · by_cases hp : env.placeOk (tr ++ [Action.look p true]) (addC p (faceVec f))
        (negC (faceVec f)) = true
    · refine Or.inr (Or.inl ⟨acc ++ [Action.look p true,
        Action.place (addC p (faceVec f)) (negC (faceVec f)) true],
        ?_, ?_, ?_, acc ++ [Action.look p true], by simp⟩)
      · simp [lookAndPlace, hl, hp]
      · simp [queryEvents_append, queryEvents]
      · simp [placeEvents_append, placeEvents]
    · refine Or.inr (Or.inr ⟨acc ++ [Action.look p true,
        Action.place (addC p (faceVec f)) (negC (faceVec f)) false],
        ?_, ?_, ?_, acc ++ [Action.look p true], by simp⟩)
      · simp only [lookAndPlace, hl, if_true]
        rw [Bool.not_eq_true] at hp
        simp [hp]
      · simp [queryEvents_append, queryEvents]
      · simp [placeEvents_append, placeEvents]
  · refine Or.inl ⟨acc ++ [Action.look p false], ?_, ?_, ?_, acc, rfl⟩
    · rw [Bool.not_eq_true] at hl
      simp [lookAndPlace, hl]
    · simp [queryEvents_append, queryEvents]
    · simp [placeEvents_append, placeEvents]


lemma faceAttempt_shape (env : Env) (tr : List Action) (p : Coord) (f : Face) :
    (∃ acts, faceAttempt env tr p f = FaceOutcome.skip acts ∧
       queryEvents acts = [addC p (faceVec f)] ∧ placeEvents acts = []) ∨
    (∃ acts, faceAttempt env tr p f = FaceOutcome.abort acts ∧
       queryEvents acts = [addC p (faceVec f)] ∧ placeEvents acts = [] ∧
       ((∃ pre, acts = pre ++ [Action.goto (addC p (faceVec f)) false]) ∨
        (∃ pre, acts = pre ++ [Action.look p false]))) ∨
    (∃ acts, faceAttempt env tr p f = FaceOutcome.placeFailed acts ∧
       queryEvents acts = [addC p (faceVec f)] ∧
       placeEvents acts = [(addC p (faceVec f), negC (faceVec f), false)] ∧
       ∃ pre, acts = pre ++ [Action.place (addC p (faceVec f)) (negC (faceVec f)) false]) ∨
    (∃ acts, faceAttempt env tr p f = FaceOutcome.success acts ∧
       queryEvents acts = [addC p (faceVec f)] ∧
       placeEvents acts = [(addC p (faceVec f), negC (faceVec f), true)] ∧
       ∃ pre, acts = pre ++ [Action.place (addC p (faceVec f)) (negC (faceVec f)) true]) := by
  by_cases hs : isSolid (env.blockAt tr (addC p (faceVec f))) = true
  · by_cases hc : env.canSee
        (tr ++ [Action.query (addC p (faceVec f)) (env.blockAt tr (addC p (faceVec f)))])
        (addC p (faceVec f)) = true
    · have hred : faceAttempt env tr p f
          = lookAndPlace env
              (tr ++ [Action.query (addC p (faceVec f)) (env.blockAt tr (addC p (faceVec f))),
                Action.canSee (addC p (faceVec f)) true]) p f
              [Action.query (addC p (faceVec f)) (env.blockAt tr (addC p (faceVec f))),
                Action.canSee (addC p (faceVec f)) true] := by
        simp [faceAttempt, hs, hc]
      rcases lookAndPlace_shape env
          (tr ++ [Action.query (addC p (faceVec f)) (env.blockAt tr (addC p (faceVec f))),
            Action.canSee (addC p (faceVec f)) true]) p f
          [Action.query (addC p (faceVec f)) (env.blockAt tr (addC p (faceVec f))),
            Action.canSee (addC p (faceVec f)) true] with
        ⟨acts, he, hq2, hp2, pre, hpre⟩ | ⟨acts, he, hq2, hp2, pre, hpre⟩ |
        ⟨acts, he, hq2, hp2, pre, hpre⟩
      · exact Or.inr (Or.inl ⟨acts, hred.trans he,
          hq2.trans (by simp [queryEvents]), hp2.trans (by simp [placeEvents]),
          Or.inr ⟨pre, hpre⟩⟩)
      · exact Or.inr (Or.inr (Or.inr ⟨acts, hred.trans he,
          hq2.trans (by simp [queryEvents]),
          hp2.trans (by simp [placeEvents]), pre, hpre⟩))
      · exact Or.inr (Or.inr (Or.inl ⟨acts, hred.trans he,
          hq2.trans (by simp [queryEvents]),
          hp2.trans (by simp [placeEvents]), pre, hpre⟩))
    · by_cases hg : env.gotoOk
          (tr ++ [Action.query (addC p (faceVec f)) (env.blockAt tr (addC p (faceVec f))),
            Action.canSee (addC p (faceVec f)) false])
          (addC p (faceVec f)) = true
      · have hred : faceAttempt env tr p f
            = lookAndPlace env
                (tr ++ [Action.query (addC p (faceVec f)) (env.blockAt tr (addC p (faceVec f))),
                  Action.canSee (addC p (faceVec f)) false,
                  Action.goto (addC p (faceVec f)) true]) p f
                [Action.query (addC p (faceVec f)) (env.blockAt tr (addC p (faceVec f))),
                  Action.canSee (addC p (faceVec f)) false,
                  Action.goto (addC p (faceVec f)) true] := by
          rw [Bool.not_eq_true] at hc
          simp [faceAttempt, hs, hc, hg]
        rcases lookAndPlace_shape env
            (tr ++ [Action.query (addC p (faceVec f)) (env.blockAt tr (addC p (faceVec f))),
              Action.canSee (addC p (faceVec f)) false,
              Action.goto (addC p (faceVec f)) true]) p f
            [Action.query (addC p (faceVec f)) (env.blockAt tr (addC p (faceVec f))),
              Action.canSee (addC p (faceVec f)) false,
              Action.goto (addC p (faceVec f)) true] with
          ⟨acts, he, hq2, hp2, pre, hpre⟩ | ⟨acts, he, hq2, hp2, pre, hpre⟩ |
          ⟨acts, he, hq2, hp2, pre, hpre⟩
        · exact Or.inr (Or.inl ⟨acts, hred.trans he,
            hq2.trans (by simp [queryEvents]), hp2.trans (by simp [placeEvents]),
            Or.inr ⟨pre, hpre⟩⟩)
        · exact Or.inr (Or.inr (Or.inr ⟨acts, hred.trans he,
            hq2.trans (by simp [queryEvents]),
            hp2.trans (by simp [placeEvents]), pre, hpre⟩))
        · exact Or.inr (Or.inr (Or.inl ⟨acts, hred.trans he,
            hq2.trans (by simp [queryEvents]),
            hp2.trans (by simp [placeEvents]), pre, hpre⟩))
      · refine Or.inr (Or.inl ⟨[Action.query (addC p (faceVec f))
            (env.blockAt tr (addC p (faceVec f))),
          Action.canSee (addC p (faceVec f)) false,
          Action.goto (addC p (faceVec f)) false], ?_, ?_, ?_, ?_⟩)
        · rw [Bool.not_eq_true] at hc hg
          simp [faceAttempt, hs, hc, hg]
        · simp [queryEvents]
        · simp [placeEvents]
        · exact Or.inl ⟨[Action.query (addC p (faceVec f))
              (env.blockAt tr (addC p (faceVec f))),
            Action.canSee (addC p (faceVec f)) false], rfl⟩
  · refine Or.inl ⟨[Action.query (addC p (faceVec f))
        (env.blockAt tr (addC p (faceVec f)))], ?_, ?_, ?_⟩
    · rw [Bool.not_eq_true] at hs
      simp [faceAttempt, hs]
    · simp [queryEvents]
    · simp [placeEvents]


lemma tryFaces_shape (env : Env) (p : Coord) :
    ∀ (L : List Face) (tr : List Action),
    ∃ exam rest fs,
      L = exam ++ rest ∧ fs.Sublist exam ∧
      queryEvents (tryFaces env tr p L).2 = exam.map (fun f => addC p (faceVec f)) ∧
      ((tryFaces env tr p L).1 = true →
        ∃ fs0 fl, fs = fs0 ++ [fl] ∧
          placeEvents (tryFaces env tr p L).2
            = fs0.map (fun f => (addC p (faceVec f), negC (faceVec f), false))
              ++ [(addC p (faceVec fl), negC (faceVec fl), true)] ∧
          ∃ d0, (tryFaces env tr p L).2
            = d0 ++ [Action.place (addC p (faceVec fl)) (negC (faceVec fl)) true]) ∧
      ((tryFaces env tr p L).1 = false →
        placeEvents (tryFaces env tr p L).2
          = fs.map (fun f => (addC p (faceVec f), negC (faceVec f), false))) := by
  intro L
  induction L with
  | nil =>
    intro tr
    refine ⟨[], [], [], rfl, List.Sublist.refl [], rfl, ?_, ?_⟩
    · intro h
      exact absurd h (by simp [tryFaces])
    · intro _
      rfl
  | cons f L ih =>
    intro tr
    rcases faceAttempt_shape env tr p f with
      ⟨acts, hfa, hq, hp⟩ | ⟨acts, hfa, hq, hp, _⟩ |
      ⟨acts, hfa, hq, hp, _⟩ | ⟨acts, hfa, hq, hp, pre, hpre⟩
    · -- skip: no solid reference here, loop continues
      obtain ⟨exam, rest, fs, hL, hsub, hq2, htrue, hfalse⟩ := ih (tr ++ acts)
      have hred : tryFaces env tr p (f :: L)
          = ((tryFaces env (tr ++ acts) p L).1,
             acts ++ (tryFaces env (tr ++ acts) p L).2) := by
        simp [tryFaces, hfa]
      refine ⟨f :: exam, rest, fs, by rw [hL, List.cons_append],
        hsub.cons f, ?_, ?_, ?_⟩
      · rw [hred, queryEvents_append, hq, hq2, List.map_cons]
        rfl
      · intro h
        rw [hred] at h
        obtain ⟨fs0, fl, hfs, hpe, d0, hd0⟩ := htrue h
        refine ⟨fs0, fl, hfs, ?_, acts ++ d0, ?_⟩
        · rw [hred, placeEvents_append, hp, hpe]
          rfl
        · rw [hred, hd0, List.append_assoc]
      · intro h
        rw [hred] at h
        rw [hred, placeEvents_append, hp, hfalse h]
        rfl
    · -- abort: goto or lookAt rejected, the whole call returns false
      have hred : tryFaces env tr p (f :: L) = (false, acts) := by
        simp [tryFaces, hfa]
      refine ⟨[f], L, [], rfl, List.nil_sublist [f], ?_, ?_, ?_⟩
      · rw [hred, hq]
        rfl
      · intro h
        rw [hred] at h
        exact absurd h (by simp)
      · intro _
        rw [hred, hp]
        rfl
    · -- placeFailed: this face failed, loop continues
      obtain ⟨exam, rest, fs, hL, hsub, hq2, htrue, hfalse⟩ := ih (tr ++ acts)
      have hred : tryFaces env tr p (f :: L)
          = ((tryFaces env (tr ++ acts) p L).1,
             acts ++ (tryFaces env (tr ++ acts) p L).2) := by
        simp [tryFaces, hfa]
      refine ⟨f :: exam, rest, f :: fs, by rw [hL, List.cons_append],
        hsub.cons₂ f, ?_, ?_, ?_⟩
      · rw [hred, queryEvents_append, hq, hq2, List.map_cons]
        rfl
      · intro h
        rw [hred] at h
        obtain ⟨fs0, fl, hfs, hpe, d0, hd0⟩ := htrue h
        refine ⟨f :: fs0, fl, by rw [hfs, List.cons_append], ?_, acts ++ d0, ?_⟩
        · rw [hred, placeEvents_append, hp, hpe, List.map_cons]
          rfl
        · rw [hred, hd0, List.append_assoc]
      · intro h
        rw [hred] at h
        rw [hred, placeEvents_append, hp, hfalse h, List.map_cons]
        rfl
    · -- success: placement succeeded, return true at once
      have hred : tryFaces env tr p (f :: L) = (true, acts) := by
        simp [tryFaces, hfa]
      refine ⟨[f], L, [f], rfl, List.Sublist.refl [f], ?_, ?_, ?_⟩
      · rw [hred, hq]
        rfl
      · intro _
        exact ⟨[], f, rfl, by rw [hred, hp]; rfl, pre, by rw [hred, hpre]⟩
      · intro h
        rw [hred] at h
        exact absurd h (by simp)


/-- C3: placeBlockAt examines candidate faces in the fixed order of
`faces` (the examined faces are a prefix, the queried reference positions
follow it in order, the attempted faces an order-preserving sublist); on
a successful placement it returns true at once, the successful place
action being the very last action issued. -/
theorem c3_face_order (env : Env) (tr : List Action) (x y z : Int) (bt : String) :
    ∃ exam rest fs,
      faces = exam ++ rest ∧ fs.Sublist exam ∧
      queryEvents (placeBlockAt env tr x y z bt).2
        = (x, y, z) :: exam.map (fun f => addC (x, y, z) (faceVec f)) ∧
      ((placeBlockAt env tr x y z bt).1 = true →
        ∃ fs0 fl, fs = fs0 ++ [fl] ∧
          placeEvents (placeBlockAt env tr x y z bt).2
            = fs0.map (fun f => (addC (x, y, z) (faceVec f), negC (faceVec f), false))
              ++ [(addC (x, y, z) (faceVec fl), negC (faceVec fl), true)] ∧
          ∃ d0, (placeBlockAt env tr x y z bt).2
            = d0 ++ [Action.place (addC (x, y, z) (faceVec fl))
                (negC (faceVec fl)) true]) ∧
      ((placeBlockAt env tr x y z bt).1 = false →
        placeEvents (placeBlockAt env tr x y z bt).2
          = fs.map (fun f => (addC (x, y, z) (faceVec f), negC (faceVec f), false))) := by
  by_cases hs : isSolid (env.blockAt tr (x, y, z)) = true
  · have hred : placeBlockAt env tr x y z bt
        = (false, [Action.query (x, y, z) (env.blockAt tr (x, y, z))]) := by
      simp [placeBlockAt, hs]
    refine ⟨[], faces, [], rfl, List.Sublist.refl [], ?_, ?_, ?_⟩
    · rw [hred]
      rfl
    · intro h
      rw [hred] at h
      exact absurd h (by simp)
    · intro _
      rw [hred]
      rfl
  · have hred : placeBlockAt env tr x y z bt
        = ((tryFaces env (tr ++ [Action.query (x, y, z) (env.blockAt tr (x, y, z))])
            (x, y, z) faces).1,
           Action.query (x, y, z) (env.blockAt tr (x, y, z))
             :: (tryFaces env (tr ++ [Action.query (x, y, z) (env.blockAt tr (x, y, z))])
                 (x, y, z) faces).2) := by
      rw [Bool.not_eq_true] at hs
      simp [placeBlockAt, hs]
    obtain ⟨exam, rest, fs, hL, hsub, hq, htrue, hfalse⟩ :=
      tryFaces_shape env (x, y, z) faces
        (tr ++ [Action.query (x, y, z) (env.blockAt tr (x, y, z))])
    refine ⟨exam, rest, fs, hL, hsub, ?_, ?_, ?_⟩
    · rw [hred, queryEvents_cons_query, hq]
    · intro h
      rw [hred] at h
      obtain ⟨fs0, fl, hfs, hpe, d0, hd0⟩ := htrue h
      refine ⟨fs0, fl, hfs, ?_,
        Action.query (x, y, z) (env.blockAt tr (x, y, z)) :: d0, ?_⟩
      · rw [hred, placeEvents_cons_query, hpe]
      · rw [hred, hd0]
        rfl
    · intro h
      rw [hred] at h
      rw [hred, placeEvents_cons_query, hfalse h]

/-- C2 (amended): a placeBlock rejection is caught per face and the loop
continues with the remaining faces exactly as a fresh run on them, while
a goto or lookAt rejection is caught but ends the whole call with result
false, the failing action last; nothing escapes the loop. -/
theorem c2_error_scope_amended (env : Env) (tr : List Action) (p : Coord)
    (f : Face) (rest : List Face) (acts : List Action) :
    (faceAttempt env tr p f = FaceOutcome.placeFailed acts →
      tryFaces env tr p (f :: rest)
        = ((tryFaces env (tr ++ acts) p rest).1,
           acts ++ (tryFaces env (tr ++ acts) p rest).2)) ∧
    (faceAttempt env tr p f = FaceOutcome.placeFailed acts →
      ∃ pre, acts = pre ++ [Action.place (addC p (faceVec f)) (negC (faceVec f)) false]) ∧
    (faceAttempt env tr p f = FaceOutcome.abort acts →
      tryFaces env tr p (f :: rest) = (false, acts)) ∧
    (faceAttempt env tr p f = FaceOutcome.abort acts →
      (∃ pre, acts = pre ++ [Action.goto (addC p (faceVec f)) false]) ∨
      (∃ pre, acts = pre ++ [Action.look p false])) := by
  refine ⟨?_, ?_, ?_, ?_⟩
  · intro h
    simp [tryFaces, h]
  · intro h
    rcases faceAttempt_shape env tr p f with
      ⟨acts2, hfa, _, _⟩ | ⟨acts2, hfa, _, _, _⟩ |
      ⟨acts2, hfa, _, _, pre, hpre⟩ | ⟨acts2, hfa, _, _, _, _⟩
    · exact absurd (hfa.symm.trans h) (by simp)
    · exact absurd (hfa.symm.trans h) (by simp)
    · obtain rfl : acts2 = acts := by
        have := hfa.symm.trans h
        simpa using this
      exact ⟨pre, hpre⟩
    · exact absurd (hfa.symm.trans h) (by simp)
  · intro h
    simp [tryFaces, h]
  · intro h
    rcases faceAttempt_shape env tr p f with
      ⟨acts2, hfa, _, _⟩ | ⟨acts2, hfa, _, _, hend⟩ |
      ⟨acts2, hfa, _, _, _, _⟩ | ⟨acts2, hfa, _, _, _, _⟩
    · exact absurd (hfa.symm.trans h) (by simp)
    · obtain rfl : acts2 = acts := by
        have := hfa.symm.trans h
        simpa using this
      exact hend
    · exact absurd (hfa.symm.trans h) (by simp)
    · exact absurd (hfa.symm.trans h) (by simp)

/-- C2 counterexample: the movement error on the first face (down) ends
placeBlockAt with false after only four actions — the north face, whose
reference is solid, visible, and whose placement the world would accept,
is never examined and no place action occurs, contradicting that a
movement error is a failure of that candidate face only. -/
theorem c2_movement_error_cex :
    placeBlockAt envC2 [] 0 0 0 "stone"
      = (false, [Action.query (0, 0, 0) none,
                 Action.query (0, -1, 0) (some "stone"),
                 Action.canSee (0, -1, 0) false,
                 Action.goto (0, -1, 0) false]) ∧
    envC2.blockAt [] (0, 0, -1) = some "stone" ∧
    envC2.canSee [Action.query (0, 0, 0) none] (0, 0, -1) = true ∧
    envC2.placeOk [] (0, 0, -1) (0, 0, 1) = true ∧
    placeEvents (placeBlockAt envC2 [] 0 0 0 "stone").2 = [] := by
  refine ⟨rfl, rfl, by decide, rfl, rfl⟩

/-! ### Clear-area accounting (C8) -/

lemma last_of_append_single {α : Type} (l pre1 pre2 : List α) (a b : α)
    (h1 : l = pre1 ++ [a]) (h2 : l = pre2 ++ [b]) : a = b := by
  have ha : l.getLast? = some a := by rw [h1]; exact List.getLast?_concat pre1
  have hb : l.getLast? = some b := by rw [h2]; exact List.getLast?_concat pre2
  rw [ha] at hb
  exact Option.some.inj hb

lemma clearDig_shape (env : Env) (tr : List Action) (c : Coord)
    (acc : List Action) :
    ((clearDig env tr c acc).1 = ClearOutcome.dug ∧
       (clearDig env tr c acc).2 = acc ++ [Action.dig c true]) ∨
    ((clearDig env tr c acc).1 = ClearOutcome.failed ∧
       (clearDig env tr c acc).2 = acc ++ [Action.dig c false]) := by
  by_cases hd : env.digOk tr c = true
  · exact Or.inl ⟨by simp [clearDig, hd], by simp [clearDig, hd]⟩
  · rw [Bool.not_eq_true] at hd
    exact Or.inr ⟨by simp [clearDig, hd], by simp [clearDig, hd]⟩

lemma clearGotoDig_shape (env : Env) (tr : List Action) (c : Coord)
    (acc : List Action) :
    ((clearGotoDig env tr c acc).1 = ClearOutcome.dug ∧
       ∃ pre, (clearGotoDig env tr c acc).2 = pre ++ [Action.dig c true]) ∨
    ((clearGotoDig env tr c acc).1 = ClearOutcome.failed ∧
       ((∃ pre, (clearGotoDig env tr c acc).2 = pre ++ [Action.goto c false]) ∨
        (∃ pre, (clearGotoDig env tr c acc).2 = pre ++ [Action.dig c false]))) := by
  by_cases hg : env.gotoOk tr c = true
  · have hred : clearGotoDig env tr c acc
        = clearDig env (tr ++ [Action.goto c true]) c (acc ++ [Action.goto c true]) := by
      simp [clearGotoDig, hg]
    rcases clearDig_shape env (tr ++ [Action.goto c true]) c
        (acc ++ [Action.goto c true]) with ⟨h1, h2⟩ | ⟨h1, h2⟩
    · exact Or.inl ⟨hred ▸ h1, acc ++ [Action.goto c true], hred ▸ h2⟩
    · exact Or.inr ⟨hred ▸ h1, Or.inr ⟨acc ++ [Action.goto c true], hred ▸ h2⟩⟩
  · rw [Bool.not_eq_true] at hg
    refine Or.inr ⟨by simp [clearGotoDig, hg], Or.inl ⟨acc, by simp [clearGotoDig, hg]⟩⟩

lemma clearStep_shape (env : Env) (tr : List Action) (c : Coord) :
    ((clearStep env tr c).1 = ClearOutcome.air ∧
       (clearStep env tr c).2 = [Action.query c (env.blockAt tr c)] ∧
       isSolid (env.blockAt tr c) = false) ∨
    ((clearStep env tr c).1 = ClearOutcome.dug ∧
       isSolid (env.blockAt tr c) = true ∧
       ∃ pre, (clearStep env tr c).2 = pre ++ [Action.dig c true]) ∨
    ((clearStep env tr c).1 = ClearOutcome.failed ∧
       isSolid (env.blockAt tr c) = true ∧
       ((∃ pre, (clearStep env tr c).2 = pre ++ [Action.goto c false]) ∨
        (∃ pre, (clearStep env tr c).2 = pre ++ [Action.dig c false]))) := by
  by_cases hs : isSolid (env.blockAt tr c) = true
  · by_cases hc : env.canDig (tr ++ [Action.query c (env.blockAt tr c)]) c = true
    · by_cases hsee : env.canSee (tr ++ [Action.query c (env.blockAt tr c),
          Action.canDig c true]) c = true
      · have hred : clearStep env tr c
            = clearDig env (tr ++ [Action.query c (env.blockAt tr c),
                Action.canDig c true, Action.canSee c true]) c
              [Action.query c (env.blockAt tr c), Action.canDig c true,
                Action.canSee c true] := by
          simp [clearStep, hs, hc, hsee]
        rcases clearDig_shape env (tr ++ [Action.query c (env.blockAt tr c),
            Action.canDig c true, Action.canSee c true]) c
            [Action.query c (env.blockAt tr c), Action.canDig c true,
              Action.canSee c true] with ⟨h1, h2⟩ | ⟨h1, h2⟩
        · exact Or.inr (Or.inl ⟨hred ▸ h1, hs, _, hred ▸ h2⟩)
        · exact Or.inr (Or.inr ⟨hred ▸ h1, hs, Or.inr ⟨_, hred ▸ h2⟩⟩)
      · rw [Bool.not_eq_true] at hsee
        have hred : clearStep env tr c
            = clearGotoDig env (tr ++ [Action.query c (env.blockAt tr c),
                Action.canDig c true, Action.canSee c false]) c
              [Action.query c (env.blockAt tr c), Action.canDig c true,
                Action.canSee c false] := by
          simp [clearStep, hs, hc, hsee]
        rcases clearGotoDig_shape env (tr ++ [Action.query c (env.blockAt tr c),
            Action.canDig c true, Action.canSee c false]) c
            [Action.query c (env.blockAt tr c), Action.canDig c true,
              Action.canSee c false] with ⟨h1, h2⟩ | ⟨h1, h2⟩
        · exact Or.inr (Or.inl ⟨hred ▸ h1, hs, hred ▸ h2⟩)
        · exact Or.inr (Or.inr ⟨hred ▸ h1, hs, hred ▸ h2⟩)
    · rw [Bool.not_eq_true] at hc
      have hred : clearStep env tr c
          = clearGotoDig env (tr ++ [Action.query c (env.blockAt tr c),
              Action.canDig c false]) c
            [Action.query c (env.blockAt tr c), Action.canDig c false] := by
        simp [clearStep, hs, hc]
      rcases clearGotoDig_shape env (tr ++ [Action.query c (env.blockAt tr c),
          Action.canDig c false]) c
          [Action.query c (env.blockAt tr c), Action.canDig c false] with
        ⟨h1, h2⟩ | ⟨h1, h2⟩
      · exact Or.inr (Or.inl ⟨hred ▸ h1, hs, hred ▸ h2⟩)
      · exact Or.inr (Or.inr ⟨hred ▸ h1, hs, hred ▸ h2⟩)
  · rw [Bool.not_eq_true] at hs
    exact Or.inl ⟨by simp [clearStep, hs], by simp [clearStep, hs], hs⟩


lemma clearStep_air_iff (env : Env) (tr : List Action) (c : Coord) :
    (clearStep env tr c).1 = ClearOutcome.air ↔
      isSolid (env.blockAt tr c) = false := by
  rcases clearStep_shape env tr c with ⟨h1, _, h3⟩ | ⟨h1, h2, _⟩ | ⟨h1, h2, _⟩
  · rw [h1, h3]
    simp
  · rw [h1, h2]
    simp
  · rw [h1, h2]
    simp

lemma clearStep_dug_iff (env : Env) (tr : List Action) (c : Coord) :
    (clearStep env tr c).1 = ClearOutcome.dug ↔
      ∃ pre, (clearStep env tr c).2 = pre ++ [Action.dig c true] := by
  rcases clearStep_shape env tr c with ⟨h1, h2, _⟩ | ⟨h1, _, h3⟩ | ⟨h1, _, h3⟩
  · refine iff_of_false (by simp [h1]) ?_
    rintro ⟨pre, hp⟩
    have hq : (clearStep env tr c).2 = [] ++ [Action.query c (env.blockAt tr c)] := by
      simp [h2]
    have := last_of_append_single _ [] pre _ _ hq hp
    simp at this
  · exact iff_of_true h1 h3
  · refine iff_of_false (by simp [h1]) ?_
    rintro ⟨pre, hp⟩
    rcases h3 with ⟨pre2, hp2⟩ | ⟨pre2, hp2⟩
    · have := last_of_append_single _ pre2 pre _ _ hp2 hp
      simp at this
    · have := last_of_append_single _ pre2 pre _ _ hp2 hp
      simp at this

lemma clearStep_failed_iff (env : Env) (tr : List Action) (c : Coord) :
    (clearStep env tr c).1 = ClearOutcome.failed ↔
      (∃ pre, (clearStep env tr c).2 = pre ++ [Action.goto c false]) ∨
      (∃ pre, (clearStep env tr c).2 = pre ++ [Action.dig c false]) := by
  rcases clearStep_shape env tr c with ⟨h1, h2, _⟩ | ⟨h1, _, h3⟩ | ⟨h1, _, h3⟩
  · refine iff_of_false (by simp [h1]) ?_
    have hq : (clearStep env tr c).2 = [] ++ [Action.query c (env.blockAt tr c)] := by
      simp [h2]
    rintro (⟨pre, hp⟩ | ⟨pre, hp⟩)
    · have := last_of_append_single _ [] pre _ _ hq hp
      simp at this
    · have := last_of_append_single _ [] pre _ _ hq hp
      simp at this
  · refine iff_of_false (by simp [h1]) ?_
    obtain ⟨pre2, hp2⟩ := h3
    rintro (⟨pre, hp⟩ | ⟨pre, hp⟩)
    · have := last_of_append_single _ pre2 pre _ _ hp2 hp
      simp at this
    · have := last_of_append_single _ pre2 pre _ _ hp2 hp
      simp at this
  · exact iff_of_true h1 h3

lemma clearRun_spec (env : Env) :
    ∀ (cs : List Coord) (tr : List Action),
      (clearRun env tr cs).1 = (clearOutcomes env tr cs).count ClearOutcome.dug ∧
      (clearRun env tr cs).2.1
        = (clearOutcomes env tr cs).count ClearOutcome.failed ∧
      (clearOutcomes env tr cs).length = cs.length := by
  intro cs
  induction cs with
  | nil => intro tr; exact ⟨rfl, rfl, rfl⟩
  | cons c cs ih =>
    intro tr
    obtain ⟨ih1, ih2, ih3⟩ := ih (tr ++ (clearStep env tr c).2)
    cases hstep : (clearStep env tr c).1 <;>
      simp [clearRun, clearOutcomes, hstep, List.count_cons, ih1, ih2, ih3]

/-- C8: clear-area, over the whole cuboid, counts exactly the dug and
failed step outcomes (air cells touch neither counter and every
coordinate is processed); a step digs iff its last action is a
successful dig, fails iff its movement or dig action rejected, and is
air iff the queried block was absent or air. -/
theorem c8_clear_area (env : Env) (tr : List Action) (x1 y1 z1 x2 y2 z2 : Int) :
    (clearArea env tr x1 y1 z1 x2 y2 z2).1.blocksDug
      = (clearOutcomes env tr (fillCoords x1 y1 z1 x2 y2 z2)).count
          ClearOutcome.dug ∧
    (clearArea env tr x1 y1 z1 x2 y2 z2).1.blocksFailed
      = (clearOutcomes env tr (fillCoords x1 y1 z1 x2 y2 z2)).count
          ClearOutcome.failed ∧
    (clearOutcomes env tr (fillCoords x1 y1 z1 x2 y2 z2)).length
      = (fillCoords x1 y1 z1 x2 y2 z2).length ∧
    (∀ (tr2 : List Action) (c : Coord),
      (clearStep env tr2 c).1 = ClearOutcome.air ↔
        isSolid (env.blockAt tr2 c) = false) ∧
    (∀ (tr2 : List Action) (c : Coord),
      (clearStep env tr2 c).1 = ClearOutcome.dug ↔
        ∃ pre, (clearStep env tr2 c).2 = pre ++ [Action.dig c true]) ∧
    (∀ (tr2 : List Action) (c : Coord),
      (clearStep env tr2 c).1 = ClearOutcome.failed ↔
        (∃ pre, (clearStep env tr2 c).2 = pre ++ [Action.goto c false]) ∨
        (∃ pre, (clearStep env tr2 c).2 = pre ++ [Action.dig c false])) := by
  obtain ⟨h1, h2, h3⟩ := clearRun_spec env (fillCoords x1 y1 z1 x2 y2 z2) tr
  exact ⟨h1, h2, h3, fun tr2 c => clearStep_air_iff env tr2 c,
    fun tr2 c => clearStep_dug_iff env tr2 c,
    fun tr2 c => clearStep_failed_iff env tr2 c⟩

end MinecraftBuild
